import Mathlib

/-!
Shallow embedding of the MAT archive sanitizer core
(`libmat/archive.py`, `libmat/parser.py`, `libmat/office.py`).

Filenames are Lean `String`s, payloads are `List Nat` (byte lists).
Child strippers produced by the factory `create_class_file` are abstracted
as a pair of a container flag (`isinstance(·, GenericArchiveStripper)`)
and a byte transformation (the effect of the child's `remove_all` on the
extracted file), since leaf parsers are external collaborators.
-/

/-! ## String helpers mirroring the Python string/path operations -/

def isPrefixB : List Char → List Char → Bool
  | [], _ => true
  | _ :: _, [] => false
  | x :: xs, y :: ys => x == y && isPrefixB xs ys

/-- `s.startswith(p)` -/
def strStartsWith (s p : String) : Bool := isPrefixB p.data s.data

/-- `s.endswith(p)` -/
def strEndsWith (s p : String) : Bool := isPrefixB p.data.reverse s.data.reverse

/-- Python string equality, used for `in` on lists of names. -/
def strEqB (a b : String) : Bool := a.data == b.data

/-- `x in l` for a Python list of strings. -/
def memB (x : String) (l : List String) : Bool := l.any (fun y => strEqB x y)

/-- Index of the last occurrence of `c` in `l`, if any (Python `str.rfind`). -/
def lastIndexOfAux (c : Char) : List Char → Nat → Option Nat → Option Nat
  | [], _, acc => acc
  | x :: xs, i, acc => lastIndexOfAux c xs (i + 1) (if x == c then some i else acc)

def lastIndexOf (c : Char) (l : List Char) : Option Nat := lastIndexOfAux c l 0 none

/-- Split position of `posixpath.splitext`: the index of the extension dot,
provided it lies after the last `/` and the basename has a non-dot character
before it (leading dots of the basename never start an extension). -/
def extSplitIndex (l : List Char) : Option Nat :=
  match lastIndexOf '.' l with
  | none => none
  | some dotIdx =>
      match lastIndexOf '/' l with
      | none =>
          if (List.range dotIdx).any (fun k => l.getD k '.' != '.') then some dotIdx
          else none
      | some sepIdx =>
          if sepIdx < dotIdx &&
              (List.range dotIdx).any (fun k => decide (sepIdx < k) && (l.getD k '.' != '.')) then
            some dotIdx
          else none

/-- `os.path.splitext` (POSIX flavour). -/
def splitext (s : String) : String × String :=
  match extSplitIndex s.data with
  | none => (s, "")
  | some i => (String.mk (s.data.take i), String.mk (s.data.drop i))

/-- `os.path.join` (POSIX flavour, two components). -/
def osPathJoin (a b : String) : String :=
  if strStartsWith b "/" then b
  else if strEqB a "" || strEndsWith a "/" then a ++ b
  else a ++ "/" ++ b

/-! ## Shared constants (`libmat/parser.py`, `libmat/archive.py`) -/

/-- `parser.NOMETA`: extensions that cannot carry metadata. -/
def NOMETA : List String := [".bmp", ".rdf", ".txt", ".xml", ".rels"]

/-- `ZIP_EPOCH = (1980, 1, 1, 0, 0, 0)` -/
def ZIP_EPOCH : Nat × Nat × Nat × Nat × Nat × Nat := (1980, 1, 1, 0, 0, 0)

/-- `zipfile.ZIP_DEFLATED` -/
def ZIP_DEFLATED : Nat := 8

/-- `stat.S_IWUSR` (owner-write bit, 0o200). -/
def S_IWUSR : Nat := 128

/-! ## Child strippers and the factory -/

/-- Abstraction of a child stripper returned by `libmat.mat.create_class_file`:
`isContainer` records `isinstance(cfile, GenericArchiveStripper)` and
`sanitize` is the effect of the child's `remove_all` on the file's bytes. -/
structure Stripper where
  isContainer : Bool
  sanitize : List Nat → List Nat

/-- `create_class_file` restricted to what the archive engines use of it:
the decision (and child behaviour) as a function of the extracted entry name. -/
def Factory : Type := String → Option Stripper

/-! ## ZIP entries -/

/-- A `zipfile.ZipInfo` together with the state of its extracted copy:
`isfile` is `os.path.isfile(path)` after extraction, `mode` is the stored
`st_mode` of the extracted file, `content` its payload bytes. -/
structure ZipEntry where
  filename : String
  date_time : Nat × Nat × Nat × Nat × Nat × Nat
  create_system : Nat
  comment : String
  compress_type : Nat
  isfile : Bool
  mode : Nat
  content : List Nat

/-- An entry written to the output archive by `zipout.writestr(zinfo, ...)`. -/
structure ZipOutEntry where
  filename : String
  date_time : Nat × Nat × Nat × Nat × Nat × Nat
  create_system : Nat
  comment : String
  compress_type : Nat
  content : List Nat
deriving DecidableEq

/-- The fresh `zinfo` composed in `ZipStripper.remove_all`:
`ZipInfo(name, date_time=ZIP_EPOCH)` with `compress_type = ZIP_DEFLATED`,
`create_system = 3`, `comment = ''`, carrying the given payload. -/
def normalizedOut (name : String) (content : List Nat) : ZipOutEntry :=
  { filename := name, date_time := ZIP_EPOCH, create_system := 3, comment := "",
    compress_type := ZIP_DEFLATED, content := content }

/-- The two blacklist tests of `ZipStripper.remove_all`:
`item.filename.startswith(f)` for `f` in `beginning_blacklist` or
`item.filename.endswith(f)` for `f` in `ending_blacklist`. -/
def zipBlacklisted (bb eb : List String) (name : String) : Bool :=
  bb.any (fun f => strStartsWith name f) || eb.any (fun f => strEndsWith name f)

/-- One iteration of the loop of `ZipStripper.remove_all` (archive.py:172-199):
what, if anything, is written to `zipout` for the input entry `item`. -/
def processZipEntry (f : Factory) (add2archive : Bool) (wl bb eb : List String)
    (item : ZipEntry) : Option ZipOutEntry :=
  if item.isfile && !(zipBlacklisted bb eb item.filename) then
    match f item.filename with
    | some cfile => some (normalizedOut item.filename (cfile.sanitize item.content))
    | none =>
        if memB item.filename wl then some (normalizedOut item.filename item.content)
        else if add2archive || memB (splitext item.filename).2 NOMETA then
          some (normalizedOut item.filename item.content)
        else none
  else none

/-- `ZipStripper.remove_all` as an archive transformation: the sequence of
entries written to the output archive, in input order. -/
def zipRemoveAll (f : Factory) (add2archive : Bool) (wl bb eb : List String)
    (items : List ZipEntry) : List ZipOutEntry :=
  items.filterMap (processZipEntry f add2archive wl bb eb)

/-! ## TAR entries -/

/-- A `tarfile.TarInfo` together with the state of its extracted copy. -/
structure TarEntry where
  name : String
  mtime : Nat
  uid : Nat
  gid : Nat
  uname : String
  gname : String
  isfile : Bool
  mode : Nat
  content : List Nat

/-- An entry written to the output tar by `tarout.add(..., filter=_remove_tar_added)`. -/
structure TarOutEntry where
  name : String
  mtime : Nat
  uid : Nat
  gid : Nat
  uname : String
  gname : String
  content : List Nat
deriving DecidableEq

/-- The member produced by `tarout.add(path, item.name, filter=_remove_tar_added)`:
`_remove_tar_added` sets `mtime = uid = gid = 0` and `uname = gname = ''`. -/
def tarNormalizedOut (name : String) (content : List Nat) : TarOutEntry :=
  { name := name, mtime := 0, uid := 0, gid := 0, uname := "", gname := "",
    content := content }

/-- One iteration of the loop of `TarStripper.remove_all` (archive.py:236-257):
what, if anything, is added to `tarout` for the input member `item`.
`tarout.add` sits inside the `if item.isfile():` block, so non-file members
are extracted but never added. -/
def processTarEntry (f : Factory) (add2archive : Bool) (wl : List String)
    (item : TarEntry) : Option TarOutEntry :=
  if item.isfile then
    match f item.name with
    | some cfile => some (tarNormalizedOut item.name (cfile.sanitize item.content))
    | none =>
        if add2archive || memB (splitext item.name).2 NOMETA then
          some (tarNormalizedOut item.name item.content)
        else if memB item.name wl then some (tarNormalizedOut item.name item.content)
        else none
  else none

/-- `TarStripper.remove_all` as an archive transformation. -/
def tarRemoveAll (f : Factory) (add2archive : Bool) (wl : List String)
    (items : List TarEntry) : List TarOutEntry :=
  items.filterMap (processTarEntry f add2archive wl)

/-! ## File-level run of `remove_all`, with the container library's exceptions

`ZipStripper.remove_all` / `TarStripper.remove_all` contain no `try`/`except`:
an exception raised by `zipfile`/`tarfile` (e.g. on a corrupt archive)
propagates to the caller, and `do_backup()` — the only statement that touches
the source file — is reached only after the whole rebuild succeeded, in which
case the method returns `True`. `parse` stands for opening and reading the
input archive, `ser` for serializing the rebuilt archive. The result is the
Python outcome (`Except.error` = uncaught exception, `Except.ok` = return
value) paired with the bytes of the source file after the call. -/

def zipRemoveAllOnFile (parse : List Nat → Except String (List ZipEntry))
    (ser : List ZipOutEntry → List Nat) (f : Factory) (add2archive : Bool)
    (wl bb eb : List String) (src : List Nat) : Except String Bool × List Nat :=
  match parse src with
  | Except.error e => (Except.error e, src)
  | Except.ok items => (Except.ok true, ser (zipRemoveAll f add2archive wl bb eb items))

def tarRemoveAllOnFile (parse : List Nat → Except String (List TarEntry))
    (ser : List TarOutEntry → List Nat) (f : Factory) (add2archive : Bool)
    (wl : List String) (src : List Nat) : Except String Bool × List Nat :=
  match parse src with
  | Except.error e => (Except.error e, src)
  | Except.ok items => (Except.ok true, ser (tarRemoveAll f add2archive wl items))

/-! ## Publication protocol (`GenericParser.do_backup`, parser.py:62-73) -/

/-- `do_backup` as the list of `shutil.move(src, dst)` calls it issues, in
order. With `backup` set, the first move sends the source file to
`os.path.join(self.filename, '.bak')`; the last move publishes the output. -/
def doBackupMoves (backup : Bool) (filename output : String) : List (String × String) :=
  if backup then
    [(filename, osPathJoin filename ".bak"), (output, filename)]
  else
    [(output, filename)]

/-- The destination path the code computes for the backup copy. -/
def backupDest (filename : String) : String := osPathJoin filename ".bak"

/-! ## Per-entry mode handling (archive.py:183-187 and 243-247) -/

/-- Filesystem operations performed on one extracted entry while a child
stripper handles it. -/
inductive FileOp where
  | chmod : Nat → FileOp
  | runChild : Bool → FileOp
deriving DecidableEq

/-- Effect of one operation on the extracted file's mode (the child's
`remove_all` republishes content but its boolean result is ignored and the
mode of the path is set only by the surrounding `os.chmod` calls). -/
def applyOp (mode : Nat) : FileOp → Nat
  | FileOp.chmod m => m
  | FileOp.runChild _ => mode

/-- The operation sequence of the `cfile is not None` branch:
`os.chmod(path, old_stat | stat.S_IWUSR)`, `cfile.remove_all()` (with result
`childResult`), `os.chmod(path, old_stat)`. -/
def childEntryOps (oldStat : Nat) (childResult : Bool) : List FileOp :=
  [FileOp.chmod (Nat.lor oldStat S_IWUSR), FileOp.runChild childResult,
   FileOp.chmod oldStat]

/-- Operations performed on the extracted file of name `name` with stored mode
`mode`: the chmod dance happens exactly when the factory returns a stripper. -/
def entryModeOps (f : Factory) (name : String) (mode : Nat) (childResult : Bool) :
    List FileOp :=
  match f name with
  | some _ => childEntryOps mode childResult
  | none => []

/-- The extracted file's mode once the entry has been processed. -/
def modeAfterEntry (f : Factory) (name : String) (mode : Nat) (childResult : Bool) : Nat :=
  (entryModeOps f name mode childResult).foldl applyOp mode

/-! ## Terminal-ZIP as the spec describes it -/

/-- Modelled from the spec: "Terminal-ZIP is a ZIP engine that short-circuits
nested-archive recursion: if an entry's resolved stripper is itself a container
stripper, the entry is treated as if no stripper matched (fall through to
`NOMETA` / whitelist / `add2archive` rules)."  This definition follows the
spec's words; the code's `TerminalZipStripper` (archive.py:347-353) is an
empty subclass of `ZipStripper`, so the code side is `processZipEntry`. -/
def processTerminalZipEntrySpec (f : Factory) (add2archive : Bool)
    (wl bb eb : List String) (item : ZipEntry) : Option ZipOutEntry :=
  if item.isfile && !(zipBlacklisted bb eb item.filename) then
    match f item.filename with
    | some cfile =>
        if cfile.isContainer then
          if memB item.filename wl then some (normalizedOut item.filename item.content)
          else if add2archive || memB (splitext item.filename).2 NOMETA then
            some (normalizedOut item.filename item.content)
          else none
        else some (normalizedOut item.filename (cfile.sanitize item.content))
    | none =>
        if memB item.filename wl then some (normalizedOut item.filename item.content)
        else if add2archive || memB (splitext item.filename).2 NOMETA then
          some (normalizedOut item.filename item.content)
        else none
  else none

/-- Modelled from the spec: the whole terminal-ZIP rebuild under the spec's
short-circuit rule. -/
def terminalZipRemoveAllSpec (f : Factory) (add2archive : Bool)
    (wl bb eb : List String) (items : List ZipEntry) : List ZipOutEntry :=
  items.filterMap (processTerminalZipEntrySpec f add2archive wl bb eb)

/-! ## Second-pass reading of a sanitized archive (for idempotence) -/

/-- Reading back an entry the first pass wrote: the envelope is the normalized
one, the payload is what was written, and—being an ordinary file entry—it
extracts to a regular file whose fresh stat mode is `m`. -/
def outToZipEntry (m : Nat) (o : ZipOutEntry) : ZipEntry :=
  { filename := o.filename, date_time := o.date_time, create_system := o.create_system,
    comment := o.comment, compress_type := o.compress_type, isfile := true,
    mode := m, content := o.content }

/-- Reading back a tar member the first pass added. -/
def outToTarEntry (m : Nat) (t : TarOutEntry) : TarEntry :=
  { name := t.name, mtime := t.mtime, uid := t.uid, gid := t.gid,
    uname := t.uname, gname := t.gname, isfile := true, mode := m,
    content := t.content }

/-! ## Derived retention conditions -/

/-- Whether a ZIP file entry with no child stripper is kept: the code keeps it
when `item.filename in whitelist`, and otherwise when
`self.add2archive or ext in NOMETA`. -/
def zipKeep (add2archive : Bool) (wl : List String) (name : String) : Bool :=
  memB name wl || (add2archive || memB (splitext name).2 NOMETA)

/-- Whether a TAR file member with no child stripper is kept. -/
def tarKeep (add2archive : Bool) (wl : List String) (name : String) : Bool :=
  (add2archive || memB (splitext name).2 NOMETA) || memB name wl

/-! ## Concrete sample inputs used by witnesses and counterexamples -/

/-- A factory that recognizes only `inner.zip`, resolving it to a container
stripper (as `create_class_file` does for a nested ZIP). -/
def nestedFactory : Factory := fun n =>
  if strEqB n "inner.zip" then some ⟨true, fun _ => []⟩ else none

/-- A nested-archive entry inside a terminal ZIP (e.g. a `.zip` packed into a
`.docx`). -/
def nestedEntry : ZipEntry :=
  { filename := "inner.zip", date_time := (2024, 6, 1, 0, 0, 0), create_system := 0,
    comment := "x", compress_type := 8, isfile := true, mode := 420,
    content := [1, 2, 3] }

/-- A factory resolving every path to a (non-container) leaf stripper whose
`remove_all` always rewrites the file to the single byte `0`. -/
def constFactory : Factory := fun _ => some ⟨false, fun _ => [0]⟩

/-- A plain text entry carrying envelope metadata. -/
def txtZipEntry : ZipEntry :=
  { filename := "notes.txt", date_time := (2024, 6, 1, 12, 0, 0), create_system := 0,
    comment := "x", compress_type := 0, isfile := true, mode := 420,
    content := [104, 105] }

/-- A tar member carrying envelope metadata. -/
def txtTarEntry : TarEntry :=
  { name := "notes.txt", mtime := 1717243200, uid := 1000, gid := 1000,
    uname := "user", gname := "users", isfile := true, mode := 420,
    content := [104, 105] }

/-- An unsupported-format entry (`.bin` is not in `NOMETA`). -/
def binZipEntry : ZipEntry :=
  { filename := "data.bin", date_time := (2023, 2, 3, 4, 5, 6), create_system := 2,
    comment := "", compress_type := 0, isfile := true, mode := 420,
    content := [0, 1] }

/-- A directory member of a tar archive (`isfile()` is false). -/
def dirTarEntry : TarEntry :=
  { name := "subdir", mtime := 1700000000, uid := 1000, gid := 1000, uname := "u",
    gname := "g", isfile := false, mode := 493, content := [] }

/-- A non-file tar member whose name passes every retention rule. -/
def fifoTarEntry : TarEntry :=
  { name := "pipe.xml", mtime := 7, uid := 3, gid := 4, uname := "a", gname := "b",
    isfile := false, mode := 420, content := [] }

/-- A ZIP directory entry: its extracted path is a directory, so
`os.path.isfile(path)` is false. -/
def dirZipEntry : ZipEntry :=
  { filename := "assets/", date_time := (2024, 1, 1, 0, 0, 0), create_system := 3,
    comment := "", compress_type := 8, isfile := false, mode := 493, content := [] }

/-! ## Helper lemmas about the per-entry engines -/

theorem processZipEntry_some_eq {f : Factory} {a2a : Bool} {wl bb eb : List String}
    {item : ZipEntry} {s : Stripper}
    (hfile : item.isfile = true) (hbl : zipBlacklisted bb eb item.filename = false)
    (hf : f item.filename = some s) :
    processZipEntry f a2a wl bb eb item =
      some (normalizedOut item.filename (s.sanitize item.content)) := by
  simp [processZipEntry, hfile, hbl, hf]

theorem processZipEntry_none_eq {f : Factory} {a2a : Bool} {wl bb eb : List String}
    {item : ZipEntry}
    (hfile : item.isfile = true) (hbl : zipBlacklisted bb eb item.filename = false)
    (hf : f item.filename = none) :
    processZipEntry f a2a wl bb eb item =
      if zipKeep a2a wl item.filename then some (normalizedOut item.filename item.content)
      else none := by
  cases hw : memB item.filename wl <;>
    cases hk : (a2a || memB (splitext item.filename).2 NOMETA) <;>
      simp [processZipEntry, zipKeep, hfile, hbl, hf, hw, hk]

theorem processZipEntry_inv {f : Factory} {a2a : Bool} {wl bb eb : List String}
    {item : ZipEntry} {o : ZipOutEntry}
    (h : processZipEntry f a2a wl bb eb item = some o) :
    item.isfile = true ∧ zipBlacklisted bb eb item.filename = false ∧
      ((∃ s, f item.filename = some s ∧
          o = normalizedOut item.filename (s.sanitize item.content)) ∨
        (f item.filename = none ∧ zipKeep a2a wl item.filename = true ∧
          o = normalizedOut item.filename item.content)) := by
  cases hfile : item.isfile
  · simp [processZipEntry, hfile] at h
  · cases hbl : zipBlacklisted bb eb item.filename
    · refine ⟨rfl, rfl, ?_⟩
      cases hf : f item.filename with
      | none =>
          right
          rw [processZipEntry_none_eq hfile hbl hf] at h
          cases hk : zipKeep a2a wl item.filename
          · rw [hk] at h; simp at h
          · rw [hk] at h; simp at h; exact ⟨rfl, rfl, h.symm⟩
      | some s =>
          left
          rw [processZipEntry_some_eq hfile hbl hf] at h
          exact ⟨s, rfl, (Option.some.inj h).symm⟩
    · simp [processZipEntry, hfile, hbl] at h

theorem processTarEntry_some_eq {f : Factory} {a2a : Bool} {wl : List String}
    {item : TarEntry} {s : Stripper}
    (hfile : item.isfile = true) (hf : f item.name = some s) :
    processTarEntry f a2a wl item =
      some (tarNormalizedOut item.name (s.sanitize item.content)) := by
  simp [processTarEntry, hfile, hf]

theorem processTarEntry_none_eq {f : Factory} {a2a : Bool} {wl : List String}
    {item : TarEntry}
    (hfile : item.isfile = true) (hf : f item.name = none) :
    processTarEntry f a2a wl item =
      if tarKeep a2a wl item.name then some (tarNormalizedOut item.name item.content)
      else none := by
  cases hk : (a2a || memB (splitext item.name).2 NOMETA) <;>
    cases hw : memB item.name wl <;>
      simp [processTarEntry, tarKeep, hfile, hf, hk, hw]

theorem processTarEntry_inv {f : Factory} {a2a : Bool} {wl : List String}
    {item : TarEntry} {t : TarOutEntry}
    (h : processTarEntry f a2a wl item = some t) :
    item.isfile = true ∧
      ((∃ s, f item.name = some s ∧
          t = tarNormalizedOut item.name (s.sanitize item.content)) ∨
        (f item.name = none ∧ tarKeep a2a wl item.name = true ∧
          t = tarNormalizedOut item.name item.content)) := by
  cases hfile : item.isfile
  · simp [processTarEntry, hfile] at h
  · refine ⟨rfl, ?_⟩
    cases hf : f item.name with
    | none =>
        right
        rw [processTarEntry_none_eq hfile hf] at h
        cases hk : tarKeep a2a wl item.name
        · rw [hk] at h; simp at h
        · rw [hk] at h; simp at h; exact ⟨rfl, rfl, h.symm⟩
    | some s =>
        left
        rw [processTarEntry_some_eq hfile hf] at h
        exact ⟨s, rfl, (Option.some.inj h).symm⟩

theorem filterMap_map_self {α β : Type} (p : β → Option α) (conv : α → β)
    (l : List α) (h : ∀ o ∈ l, p (conv o) = some o) :
    (l.map conv).filterMap p = l := by
  induction l with
  | nil => rfl
  | cons x xs ih =>
      simp only [List.map_cons, List.filterMap_cons, h x (List.mem_cons_self x xs)]
      rw [ih (fun o ho => h o (List.mem_cons_of_mem x ho))]

/-! ## Claim theorems -/

/-- C6: the claim says the backup is named `source_path + ".bak"`. The code's
intent (per its own docstring, "Keep a backup of the file if asked") is such a
sibling backup, but `do_backup` computes the destination as
`os.path.join(self.filename, '.bak')`, a child path of the source file, which
a rename cannot create. Evaluating the code at `source_path = "doc.zip"`:
the first move targets `"doc.zip/.bak"`, not `"doc.zip.bak"`. -/
theorem claim_backup_dest_join_bug :
    doBackupMoves true "doc.zip" "/tmp/out7" =
      [("doc.zip", "doc.zip/.bak"), ("/tmp/out7", "doc.zip")] ∧
    backupDest "doc.zip" = "doc.zip/.bak" ∧
    backupDest "doc.zip" ≠ "doc.zip" ++ ".bak" :=
  ⟨rfl, rfl, by decide⟩

/-- C9: for an archive entry handled by a child stripper, the stored mode is
elevated by OR-ing `S_IWUSR` first, and the last operation restores the
original stored mode, whatever boolean the child's `remove_all` returns; so
after the entry is processed the extracted file's mode equals its stored
mode again on every path. -/
theorem claim_write_elevation_reversed (f : Factory) (name : String) (mode : Nat)
    (childResult : Bool) :
    modeAfterEntry f name mode childResult = mode ∧
    (∀ s, f name = some s →
      entryModeOps f name mode childResult =
        [FileOp.chmod (Nat.lor mode S_IWUSR), FileOp.runChild childResult,
         FileOp.chmod mode]) := by
  cases hf : f name <;>
    simp [modeAfterEntry, entryModeOps, childEntryOps, applyOp, hf]

theorem claim_write_elevation_reversed_witness :
    modeAfterEntry constFactory "img.png" 292 false = 292 ∧
    entryModeOps constFactory "img.png" 292 false =
      [FileOp.chmod (Nat.lor 292 S_IWUSR), FileOp.runChild false,
       FileOp.chmod 292] :=
  ⟨(claim_write_elevation_reversed constFactory "img.png" 292 false).1,
   (claim_write_elevation_reversed constFactory "img.png" 292 false).2
     ⟨false, fun _ => [0]⟩ rfl⟩

/-- C10 counterexample: the claim's contrast "unlike TAR, ZIP non-file entries
are never re-added" is false — the TAR engine also never re-adds non-file
members, even when every retention rule (whitelist, NOMETA extension,
add2archive) would keep them: a non-file member named `pipe.xml` (extension in
`NOMETA`, whitelisted, `add2archive = true`) yields an empty output, exactly
like the ZIP case. -/
theorem claim_c10_counterexample :
    tarRemoveAll (fun _ => none) true ["pipe.xml"] [fifoTarEntry] = [] ∧
    zipRemoveAll (fun _ => none) true ["assets/"] [] [] [dirZipEntry] = [] :=
  ⟨rfl, rfl⟩

/-- C10 (amended): in a ZIP `remove_all`, any input entry whose extracted path
is not a regular file is silently omitted from the rebuilt archive regardless
of whitelist, NOMETA, or add2archive — and the TAR engine likewise never
re-adds non-file members. -/
theorem claim_zip_nonfile_omitted (f : Factory) (a2a : Bool) (wl bb eb : List String)
    (item : ZipEntry) (tf : Factory) (ta : Bool) (twl : List String)
    (titem : TarEntry) :
    (item.isfile = false → processZipEntry f a2a wl bb eb item = none) ∧
    (titem.isfile = false → processTarEntry tf ta twl titem = none) := by
  constructor <;> intro h <;> simp [processZipEntry, processTarEntry, h]

theorem claim_zip_nonfile_omitted_witness :
    processZipEntry (fun _ => none) true ["assets/"] [] [] dirZipEntry = none ∧
    processTarEntry (fun _ => none) true ["pipe.xml"] fifoTarEntry = none :=
  ⟨(claim_zip_nonfile_omitted (fun _ => none) true ["assets/"] [] [] dirZipEntry
      (fun _ => none) true ["pipe.xml"] fifoTarEntry).1 rfl,
   (claim_zip_nonfile_omitted (fun _ => none) true ["assets/"] [] [] dirZipEntry
      (fun _ => none) true ["pipe.xml"] fifoTarEntry).2 rfl⟩

/-- C7 counterexample: the claim says non-file TAR members are "nevertheless
re-added to the output archive with normalized envelope fields only", but
`tarout.add` sits inside `if item.isfile():`, so a directory member is
dropped: a tar holding only the directory `subdir` (even whitelisted and with
`add2archive = true`) rebuilds to an empty archive. -/
theorem claim_c7_counterexample :
    tarRemoveAll (fun _ => none) true ["subdir"] [dirTarEntry] = [] :=
  rfl

/-- C7 (amended): in a TAR `remove_all`, only `isfile()` members are recursed
into child strippers, and only file members are re-added at all: a non-file
member is extracted but omitted from the output, while a file member resolved
to a child stripper is re-added with normalized envelope and sanitized
payload. -/
theorem claim_tar_isfile_only (f : Factory) (a2a : Bool) (wl : List String)
    (item : TarEntry) (s : Stripper) :
    (item.isfile = false → processTarEntry f a2a wl item = none) ∧
    (item.isfile = true → f item.name = some s →
      processTarEntry f a2a wl item =
        some (tarNormalizedOut item.name (s.sanitize item.content))) := by
  constructor
  · intro h; simp [processTarEntry, h]
  · intro h hf; exact processTarEntry_some_eq h hf

theorem claim_tar_isfile_only_witness :
    processTarEntry constFactory false [] dirTarEntry = none ∧
    processTarEntry constFactory false [] txtTarEntry =
      some (tarNormalizedOut "notes.txt" [0]) :=
  ⟨(claim_tar_isfile_only constFactory false [] dirTarEntry
      ⟨false, fun _ => [0]⟩).1 rfl,
   (claim_tar_isfile_only constFactory false [] txtTarEntry
      ⟨false, fun _ => [0]⟩).2 rfl rfl⟩

/-- C5 counterexample: `TerminalZipStripper` is an empty subclass of
`ZipStripper` and adds no short-circuit. For a `.zip` entry resolved by the
factory to a container stripper (not whitelisted, extension not in `NOMETA`,
`add2archive = false`), the spec's fall-through rule would drop the entry,
but the code recurses into it and keeps it with the recursed payload. -/
theorem claim_c5_counterexample :
    terminalZipRemoveAllSpec nestedFactory false [] [] [] [nestedEntry] = [] ∧
    zipRemoveAll nestedFactory false [] [] [] [nestedEntry] =
      [normalizedOut "inner.zip" []] :=
  ⟨rfl, rfl⟩

/-- C5 (amended): the terminal-ZIP engine treats an entry whose resolved
stripper is a container stripper exactly like any other stripper match: the
child's `remove_all` is invoked (recursion is not short-circuited) and the
entry is re-added with normalized envelope and the child's output bytes. -/
theorem claim_terminal_zip_recurses (f : Factory) (a2a : Bool)
    (wl bb eb : List String) (item : ZipEntry) (s : Stripper)
    (hfile : item.isfile = true)
    (hbl : zipBlacklisted bb eb item.filename = false)
    (hs : f item.filename = some s) :
    processZipEntry f a2a wl bb eb item =
      some (normalizedOut item.filename (s.sanitize item.content)) :=
  processZipEntry_some_eq hfile hbl hs

theorem claim_terminal_zip_recurses_witness :
    processZipEntry nestedFactory false [] [] [] nestedEntry =
      some (normalizedOut "inner.zip" []) :=
  claim_terminal_zip_recurses nestedFactory false [] [] [] nestedEntry
    ⟨true, fun _ => []⟩ rfl rfl rfl

/-- C4 counterexample: `remove_all` contains no `try`/`except`, so when the
container library raises on a corrupt archive the claim's "returns false"
does not happen: opening the file raises `BadZipfile` and the call's outcome
is that exception, not the return value `False`. -/
theorem claim_c4_counterexample :
    (zipRemoveAllOnFile (fun _ => Except.error "BadZipfile") (fun _ => [])
        (fun _ => none) true [] [] [] [80, 75, 1]).1 = Except.error "BadZipfile" ∧
    (zipRemoveAllOnFile (fun _ => Except.error "BadZipfile") (fun _ => [])
        (fun _ => none) true [] [] [] [80, 75, 1]).1 ≠ Except.ok false :=
  ⟨rfl, fun h => nomatch h⟩

/-- C4 (amended): when the container library raises during `remove_all`, the
exception propagates to the caller — `remove_all` does not return false —
while the source file is left byte-identical to its pre-call state, because
`do_backup()` (the only statement that mutates the source) is reached only
after a fully successful rebuild. -/
theorem claim_library_exception_propagates
    (zparse : List Nat → Except String (List ZipEntry))
    (zser : List ZipOutEntry → List Nat) (zf : Factory) (za : Bool)
    (wl bb eb : List String)
    (tparse : List Nat → Except String (List TarEntry))
    (tser : List TarOutEntry → List Nat) (tf : Factory) (ta : Bool)
    (twl : List String) (zsrc tsrc : List Nat) (e1 e2 : String)
    (hz : zparse zsrc = Except.error e1) (ht : tparse tsrc = Except.error e2) :
    zipRemoveAllOnFile zparse zser zf za wl bb eb zsrc = (Except.error e1, zsrc) ∧
    tarRemoveAllOnFile tparse tser tf ta twl tsrc = (Except.error e2, tsrc) := by
  constructor <;> simp [zipRemoveAllOnFile, tarRemoveAllOnFile, hz, ht]

theorem claim_library_exception_propagates_witness :
    zipRemoveAllOnFile (fun _ => Except.error "BadZipfile") (fun _ => [])
        (fun _ => none) true [] [] [] [80, 75, 1] =
      (Except.error "BadZipfile", [80, 75, 1]) ∧
    tarRemoveAllOnFile (fun _ => Except.error "ReadError") (fun _ => [])
        (fun _ => none) true [] [31, 139] =
      (Except.error "ReadError", [31, 139]) :=
  claim_library_exception_propagates
    (fun _ => Except.error "BadZipfile") (fun _ => []) (fun _ => none) true [] [] []
    (fun _ => Except.error "ReadError") (fun _ => []) (fun _ => none) true []
    [80, 75, 1] [31, 139] "BadZipfile" "ReadError" rfl rfl

/-- C1: every entry written by a successful ZIP `remove_all` carries the fresh
`zinfo` envelope — date `1980-01-01 00:00:00`, host system 3 (UNIX), empty
comment, DEFLATE compression — and every member added by a successful TAR
`remove_all` went through `_remove_tar_added`: mtime, uid, gid are 0 and
uname, gname are empty. -/
theorem claim_envelope_normalization
    (zf : Factory) (za : Bool) (wl bb eb : List String) (zitems : List ZipEntry)
    (tf : Factory) (ta : Bool) (twl : List String) (titems : List TarEntry) :
    (∀ o ∈ zipRemoveAll zf za wl bb eb zitems,
        o.date_time = ZIP_EPOCH ∧ o.create_system = 3 ∧ o.comment = "" ∧
          o.compress_type = ZIP_DEFLATED) ∧
    (∀ t ∈ tarRemoveAll tf ta twl titems,
        t.mtime = 0 ∧ t.uid = 0 ∧ t.gid = 0 ∧ t.uname = "" ∧ t.gname = "") := by
  constructor
  · intro o ho
    obtain ⟨item, -, h⟩ := List.mem_filterMap.mp ho
    obtain ⟨-, -, hcase⟩ := processZipEntry_inv h
    rcases hcase with ⟨s, -, rfl⟩ | ⟨-, -, rfl⟩ <;> exact ⟨rfl, rfl, rfl, rfl⟩
  · intro t ht
    obtain ⟨item, -, h⟩ := List.mem_filterMap.mp ht
    obtain ⟨-, hcase⟩ := processTarEntry_inv h
    rcases hcase with ⟨s, -, rfl⟩ | ⟨-, -, rfl⟩ <;> exact ⟨rfl, rfl, rfl, rfl, rfl⟩

theorem claim_envelope_normalization_witness :
    (normalizedOut "notes.txt" [104, 105]).date_time = ZIP_EPOCH ∧
    (normalizedOut "notes.txt" [104, 105]).create_system = 3 ∧
    (normalizedOut "notes.txt" [104, 105]).comment = "" ∧
    (normalizedOut "notes.txt" [104, 105]).compress_type = ZIP_DEFLATED :=
  (claim_envelope_normalization (fun _ => none) true [] [] [] [txtZipEntry]
      (fun _ => none) true [] [txtTarEntry]).1
    (normalizedOut "notes.txt" [104, 105]) (by decide)

/-- C2: every entry retained in the output of a ZIP or TAR `remove_all` stems
from an input entry of the same name whose payload is, when a child stripper
matched, exactly the bytes that child's own `remove_all` produces on the
extracted file in isolation, and otherwise (pass-through) the original
extracted bytes unchanged. -/
theorem claim_content_preservation
    (zf : Factory) (za : Bool) (wl bb eb : List String) (zitems : List ZipEntry)
    (tf : Factory) (ta : Bool) (twl : List String) (titems : List TarEntry) :
    (∀ o ∈ zipRemoveAll zf za wl bb eb zitems, ∃ item, item ∈ zitems ∧
        o.filename = item.filename ∧
        ((∃ s, zf item.filename = some s ∧ o.content = s.sanitize item.content) ∨
          (zf item.filename = none ∧ o.content = item.content))) ∧
    (∀ t ∈ tarRemoveAll tf ta twl titems, ∃ item, item ∈ titems ∧
        t.name = item.name ∧
        ((∃ s, tf item.name = some s ∧ t.content = s.sanitize item.content) ∨
          (tf item.name = none ∧ t.content = item.content))) := by
  constructor
  · intro o ho
    obtain ⟨item, hmem, h⟩ := List.mem_filterMap.mp ho
    obtain ⟨-, -, hcase⟩ := processZipEntry_inv h
    refine ⟨item, hmem, ?_⟩
    rcases hcase with ⟨s, hs, rfl⟩ | ⟨hn, -, rfl⟩
    · exact ⟨rfl, Or.inl ⟨s, hs, rfl⟩⟩
    · exact ⟨rfl, Or.inr ⟨hn, rfl⟩⟩
  · intro t ht
    obtain ⟨item, hmem, h⟩ := List.mem_filterMap.mp ht
    obtain ⟨-, hcase⟩ := processTarEntry_inv h
    refine ⟨item, hmem, ?_⟩
    rcases hcase with ⟨s, hs, rfl⟩ | ⟨hn, -, rfl⟩
    · exact ⟨rfl, Or.inl ⟨s, hs, rfl⟩⟩
    · exact ⟨rfl, Or.inr ⟨hn, rfl⟩⟩

theorem claim_content_preservation_witness :
    (∃ item, item ∈ [txtZipEntry] ∧
      (normalizedOut "notes.txt" [0]).filename = item.filename ∧
      ((∃ s, constFactory item.filename = some s ∧
          (normalizedOut "notes.txt" [0]).content = s.sanitize item.content) ∨
        (constFactory item.filename = none ∧
          (normalizedOut "notes.txt" [0]).content = item.content))) ∧
    (∃ item, item ∈ [txtTarEntry] ∧
      (tarNormalizedOut "notes.txt" [104, 105]).name = item.name ∧
      ((∃ s, (fun _ => none : Factory) item.name = some s ∧
          (tarNormalizedOut "notes.txt" [104, 105]).content = s.sanitize item.content) ∨
        ((fun _ => none : Factory) item.name = none ∧
          (tarNormalizedOut "notes.txt" [104, 105]).content = item.content))) :=
  ⟨(claim_content_preservation constFactory false [] [] [] [txtZipEntry]
      (fun _ => none) true [] [txtTarEntry]).1
    (normalizedOut "notes.txt" [0]) (by decide),
   (claim_content_preservation constFactory false [] [] [] [txtZipEntry]
      (fun _ => none) true [] [txtTarEntry]).2
    (tarNormalizedOut "notes.txt" [104, 105]) (by decide)⟩

/-- C3: in the ZIP rebuild, (a) no output entry's name starts with an element
of `beginning_blacklist` or ends with an element of `ending_blacklist`, and
(b) a non-blacklisted file entry for which the factory returns no stripper is
retained exactly when its name is whitelisted, or its extension is in
`NOMETA`, or `add2archive` is set. -/
theorem claim_policy_filtering
    (f : Factory) (a2a : Bool) (wl bb eb : List String) (items : List ZipEntry)
    (item : ZipEntry) :
    (∀ o ∈ zipRemoveAll f a2a wl bb eb items,
        (∀ p ∈ bb, strStartsWith o.filename p = false) ∧
        (∀ p ∈ eb, strEndsWith o.filename p = false)) ∧
    (item.isfile = true → zipBlacklisted bb eb item.filename = false →
      f item.filename = none →
      ((processZipEntry f a2a wl bb eb item).isSome = true ↔
        (memB item.filename wl = true ∨
          memB (splitext item.filename).2 NOMETA = true ∨ a2a = true))) := by
  constructor
  · intro o ho
    obtain ⟨it, -, h⟩ := List.mem_filterMap.mp ho
    obtain ⟨-, hbl, hcase⟩ := processZipEntry_inv h
    have hname : o.filename = it.filename := by
      rcases hcase with ⟨s, -, rfl⟩ | ⟨-, -, rfl⟩ <;> rfl
    simp only [zipBlacklisted] at hbl
    constructor
    · intro p hp
      cases hx : strStartsWith o.filename p
      · rfl
      · have hb : (bb.any fun q => strStartsWith it.filename q) = true :=
          List.any_eq_true.mpr ⟨p, hp, by rwa [← hname]⟩
        simp [hb] at hbl
    · intro p hp
      cases hx : strEndsWith o.filename p
      · rfl
      · have hb : (eb.any fun q => strEndsWith it.filename q) = true :=
          List.any_eq_true.mpr ⟨p, hp, by rwa [← hname]⟩
        simp [hb] at hbl
  · intro hfile hbl hf
    rw [processZipEntry_none_eq hfile hbl hf]
    cases hk : zipKeep a2a wl item.filename
    · simp only [zipKeep, Bool.or_eq_false_iff] at hk
      simp [hk.1, hk.2.1, hk.2.2]
    · simp only [zipKeep, Bool.or_eq_true] at hk
      simp only [if_true, Option.isSome_some, true_iff]
      tauto

theorem claim_policy_filtering_witness :
    strStartsWith (normalizedOut "notes.txt" [104, 105]).filename "docProps/" = false ∧
    ((processZipEntry (fun _ => none) false [] ["docProps/"] ["meta.xml"]
        binZipEntry).isSome = true ↔
      (memB binZipEntry.filename [] = true ∨
        memB (splitext binZipEntry.filename).2 NOMETA = true ∨ false = true)) :=
  ⟨((claim_policy_filtering (fun _ => none) false [] ["docProps/"] ["meta.xml"]
        [txtZipEntry] binZipEntry).1
      (normalizedOut "notes.txt" [104, 105]) (by decide)).1 "docProps/" (by decide),
   (claim_policy_filtering (fun _ => none) false [] ["docProps/"] ["meta.xml"]
        [txtZipEntry] binZipEntry).2 rfl (by decide) rfl⟩

/-! ## Second-pass stability of the per-entry engines -/

theorem zip_second_pass_fixed {f : Factory} {a2a : Bool} {wl bb eb : List String}
    {item : ZipEntry} {o : ZipOutEntry} (m : Nat)
    (hid : ∀ n s, f n = some s → ∀ c, s.sanitize (s.sanitize c) = s.sanitize c)
    (hp : processZipEntry f a2a wl bb eb item = some o) :
    processZipEntry f a2a wl bb eb (outToZipEntry m o) = some o := by
  obtain ⟨hfile, hbl, hcase⟩ := processZipEntry_inv hp
  rcases hcase with ⟨s, hs, rfl⟩ | ⟨hs, hk, rfl⟩
  · have h2 : processZipEntry f a2a wl bb eb
        (outToZipEntry m (normalizedOut item.filename (s.sanitize item.content))) =
        some (normalizedOut item.filename (s.sanitize (s.sanitize item.content))) :=
      processZipEntry_some_eq rfl hbl hs
    rw [h2, hid _ _ hs]
  · have h2 : processZipEntry f a2a wl bb eb
        (outToZipEntry m (normalizedOut item.filename item.content)) =
        if zipKeep a2a wl item.filename then
          some (normalizedOut item.filename item.content)
        else none :=
      processZipEntry_none_eq rfl hbl hs
    rw [h2, hk]
    simp

theorem tar_second_pass_fixed {f : Factory} {a2a : Bool} {wl : List String}
    {item : TarEntry} {t : TarOutEntry} (m : Nat)
    (hid : ∀ n s, f n = some s → ∀ c, s.sanitize (s.sanitize c) = s.sanitize c)
    (hp : processTarEntry f a2a wl item = some t) :
    processTarEntry f a2a wl (outToTarEntry m t) = some t := by
  obtain ⟨hfile, hcase⟩ := processTarEntry_inv hp
  rcases hcase with ⟨s, hs, rfl⟩ | ⟨hs, hk, rfl⟩
  · have h2 : processTarEntry f a2a wl
        (outToTarEntry m (tarNormalizedOut item.name (s.sanitize item.content))) =
        some (tarNormalizedOut item.name (s.sanitize (s.sanitize item.content))) :=
      processTarEntry_some_eq rfl hs
    rw [h2, hid _ _ hs]
  · have h2 : processTarEntry f a2a wl
        (outToTarEntry m (tarNormalizedOut item.name item.content)) =
        if tarKeep a2a wl item.name then
          some (tarNormalizedOut item.name item.content)
        else none :=
      processTarEntry_none_eq rfl hs
    rw [h2, hk]
    simp

/-- C8: `remove_all` is idempotent at the archive level: provided every child
stripper the factory can return is itself idempotent on bytes (the recursive
instance of this very property), rebuilding the sanitized ZIP or TAR a second
time reproduces it entry for entry, byte for byte. -/
theorem claim_remove_all_idempotent
    (zf : Factory) (za : Bool) (wl bb eb : List String) (zitems : List ZipEntry)
    (tf : Factory) (ta : Bool) (twl : List String) (titems : List TarEntry)
    (m : Nat)
    (hz : ∀ n s, zf n = some s → ∀ c, s.sanitize (s.sanitize c) = s.sanitize c)
    (ht : ∀ n s, tf n = some s → ∀ c, s.sanitize (s.sanitize c) = s.sanitize c) :
    zipRemoveAll zf za wl bb eb
        ((zipRemoveAll zf za wl bb eb zitems).map (outToZipEntry m)) =
      zipRemoveAll zf za wl bb eb zitems ∧
    tarRemoveAll tf ta twl
        ((tarRemoveAll tf ta twl titems).map (outToTarEntry m)) =
      tarRemoveAll tf ta twl titems := by
  constructor
  · apply filterMap_map_self
    intro o ho
    obtain ⟨item, -, hp⟩ := List.mem_filterMap.mp ho
    exact zip_second_pass_fixed m hz hp
  · apply filterMap_map_self
    intro t ht2
    obtain ⟨item, -, hp⟩ := List.mem_filterMap.mp ht2
    exact tar_second_pass_fixed m ht hp

theorem claim_remove_all_idempotent_witness :
    zipRemoveAll constFactory true [] [] []
        ((zipRemoveAll constFactory true [] [] [] [txtZipEntry]).map
          (outToZipEntry 420)) =
      zipRemoveAll constFactory true [] [] [] [txtZipEntry] ∧
    tarRemoveAll constFactory true []
        ((tarRemoveAll constFactory true [] [txtTarEntry]).map
          (outToTarEntry 420)) =
      tarRemoveAll constFactory true [] [txtTarEntry] :=
  claim_remove_all_idempotent constFactory true [] [] [] [txtZipEntry]
    constFactory true [] [txtTarEntry] 420
    (fun _ s h c => by cases h; rfl) (fun _ s h c => by cases h; rfl)
